import Mathlib

/-!
Shallow embedding of the job-execution subsystem of the
model_context_protocol repository: HMAC session tokens
(src/modules/utils/tokens.py), the in-memory job store, lifecycle and
launch adapter (src/modules/utils/jobs.py and
src/modules/mcp_servers/long_job_server.py), the job control API
(src/modules/tools/long_job_tools.py), and the chunked transcription
loop (src/modules/tools/youtube_audio_transcript.py).

Modelling conventions:
- bytes are naturals below 256 (`List Nat`);
- wall-clock time is modelled at whole-second granularity (`Nat`) at the
  token layer, where the code compares `int(...)` values, and as `Rat`
  inside job records, where the code stores raw `time.time()` floats;
- the HMAC-SHA256 digest is a parameter of the token layer: the verified
  properties depend only on equality or inequality of digests, never on
  SHA256 internals;
- Python dicts keyed by `(session_id, job_id)` become association lists
  with dict update/lookup/pop semantics.
-/

namespace MCP

/-! ## base64url (tokens.py `_b64url` / `_b64url_decode`)

`base64.urlsafe_b64encode(data).rstrip(b"=")`: standard base64 over the
URL-safe alphabet with the `=` padding stripped.  We produce the
padding-stripped sextet sequence directly; `_b64url_decode` re-pads and
decodes, which on the image of `_b64url` is the inverse map. -/

/-- Character of the URL-safe base64 alphabet for a sextet: `A-Z`, `a-z`,
`0-9`, `-`, `_`. -/
def sextetChar (n : Nat) : Char :=
  if n < 26 then Char.ofNat (65 + n)
  else if n < 52 then Char.ofNat (97 + (n - 26))
  else if n < 62 then Char.ofNat (48 + (n - 52))
  else if n = 62 then '-'
  else '_'

/-- Sextet of a URL-safe base64 alphabet character (0 off the alphabet). -/
def charSextet (c : Char) : Nat :=
  if 65 ≤ c.toNat ∧ c.toNat ≤ 90 then c.toNat - 65
  else if 97 ≤ c.toNat ∧ c.toNat ≤ 122 then c.toNat - 97 + 26
  else if 48 ≤ c.toNat ∧ c.toNat ≤ 57 then c.toNat - 48 + 52
  else if c = '-' then 62
  else if c = '_' then 63
  else 0

/-- Bytes to base64 sextets, already in `rstrip(b"=")` (padding-stripped)
form: a trailing group of one byte yields two sextets, of two bytes three
sextets. -/
def toSextets : List Nat → List Nat
  | [] => []
  | [a] => [a / 4, a % 4 * 16]
  | [a, b] => [a / 4, a % 4 * 16 + b / 16, b % 16 * 4]
  | a :: b :: c :: rest =>
      a / 4 :: (a % 4 * 16 + b / 16) :: (b % 16 * 4 + c / 64) :: c % 64 :: toSextets rest

/-- Base64 sextets back to bytes (inverse of `toSextets` on its image;
a lone trailing sextet cannot arise from an encoding and decodes to
nothing). -/
def fromSextets : List Nat → List Nat
  | [] => []
  | [_] => []
  | [s0, s1] => [s0 * 4 + s1 / 16]
  | [s0, s1, s2] => [s0 * 4 + s1 / 16, s1 % 16 * 16 + s2 / 4]
  | s0 :: s1 :: s2 :: s3 :: rest =>
      (s0 * 4 + s1 / 16) :: (s1 % 16 * 16 + s2 / 4) :: (s2 % 4 * 64 + s3) :: fromSextets rest

theorem fromSextets_toSextets (bs : List Nat) (h : ∀ b ∈ bs, b < 256) :
    fromSextets (toSextets bs) = bs := by
  match bs with
  | [] => rfl
  | [a] =>
      simp only [toSextets, fromSextets, List.cons.injEq, and_true]
      omega
  | [a, b] =>
      have hb : b < 256 := h b (by simp)
      simp only [toSextets, fromSextets, List.cons.injEq, and_true]
      omega
  | a :: b :: c :: rest =>
      have hb : b < 256 := h b (by simp)
      have hc : c < 256 := h c (by simp)
      have ih := fromSextets_toSextets rest (fun x hx => h x (by simp [hx]))
      simp only [toSextets, fromSextets, List.cons.injEq, ih, and_true]
      omega

theorem toSextets_lt (bs : List Nat) (h : ∀ b ∈ bs, b < 256) :
    ∀ s ∈ toSextets bs, s < 64 := by
  match bs with
  | [] => simp [toSextets]
  | [a] =>
      have ha : a < 256 := h a (by simp)
      simp only [toSextets]
      intro s hs
      simp only [List.mem_cons, List.not_mem_nil, or_false] at hs
      omega
  | [a, b] =>
      have ha : a < 256 := h a (by simp)
      have hb : b < 256 := h b (by simp)
      simp only [toSextets]
      intro s hs
      simp only [List.mem_cons, List.not_mem_nil, or_false] at hs
      omega
  | a :: b :: c :: rest =>
      have ha : a < 256 := h a (by simp)
      have hb : b < 256 := h b (by simp)
      have hc : c < 256 := h c (by simp)
      have ih := toSextets_lt rest (fun x hx => h x (by simp [hx]))
      simp only [toSextets]
      intro s hs
      simp only [List.mem_cons] at hs
      rcases hs with hs | hs | hs | hs | hs
      · omega
      · omega
      · omega
      · omega
      · exact ih s hs

theorem charSextet_sextetChar : ∀ s, s < 64 → charSextet (sextetChar s) = s := by
  decide

theorem sextetChar_ne_dot : ∀ s, s < 64 → sextetChar s ≠ '.' := by
  decide

/-- tokens.py `_b64url`: encode bytes, padding stripped. -/
def _b64url (bs : List Nat) : String :=
  String.mk ((toSextets bs).map sextetChar)

/-- tokens.py `_b64url_decode`: re-pad and decode (on valid encodings this
is the inverse of `_b64url`; Python raises on garbage input, a path no
claim exercises). -/
def _b64url_decode (s : String) : List Nat :=
  fromSextets (s.data.map charSextet)

theorem map_charSextet_sextetChar :
    ∀ l : List Nat, (∀ s ∈ l, s < 64) → List.map (charSextet ∘ sextetChar) l = l
  | [], _ => rfl
  | x :: xs, h => by
      simp only [List.map_cons, Function.comp_apply, charSextet_sextetChar x (h x (by simp)),
        map_charSextet_sextetChar xs (fun y hy => h y (by simp [hy]))]

theorem b64url_roundtrip (bs : List Nat) (h : ∀ b ∈ bs, b < 256) :
    _b64url_decode (_b64url bs) = bs := by
  unfold _b64url _b64url_decode
  simp only [List.map_map, map_charSextet_sextetChar (toSextets bs) (toSextets_lt bs h)]
  exact fromSextets_toSextets bs h

theorem b64url_no_dot (bs : List Nat) (h : ∀ b ∈ bs, b < 256) :
    ∀ c ∈ (_b64url bs).data, c ≠ '.' := by
  unfold _b64url
  intro c hc
  simp only [List.mem_map] at hc
  obtain ⟨s, hs, rfl⟩ := hc
  exact sextetChar_ne_dot s (toSextets_lt bs h s hs)

/-! ## Splitting a token at the first dot

Models Python `token.split(".", 1)` followed by the two-way unpacking in
`verify_token`: no dot at all means the unpacking raises `ValueError`
(`invalid token format`). -/

def splitAtDot : List Char → Option (List Char × List Char)
  | [] => none
  | c :: cs =>
      if c = '.' then some ([], cs)
      else
        match splitAtDot cs with
        | none => none
        | some (a, b) => some (c :: a, b)

theorem splitAtDot_append (a b : List Char) (ha : ∀ c ∈ a, c ≠ '.') :
    splitAtDot (a ++ '.' :: b) = some (a, b) := by
  induction a with
  | nil => simp [splitAtDot]
  | cons c cs ih =>
      have hc : c ≠ '.' := ha c (by simp)
      simp only [List.cons_append, splitAtDot, if_neg hc, List.append_eq]
      rw [ih (fun x hx => ha x (by simp [hx]))]

/-! ## Decimal digits (for the `exp` field of the JSON payload) -/

/-- Fuel-driven worker for `natDigits` (structural recursion keeps
concrete tokens kernel-computable; any fuel above `n` gives the same
answer). -/
def natDigitsGo (fuel : Nat) (n : Nat) : List Nat :=
  match fuel with
  | 0 => []
  | fuel + 1 =>
      if n < 10 then [48 + n]
      else natDigitsGo fuel (n / 10) ++ [48 + n % 10]

/-- Decimal digit bytes of a natural, most significant first (the bytes of
Python `json.dumps` output for a nonnegative integer). -/
def natDigits (n : Nat) : List Nat := natDigitsGo (n + 1) n

theorem natDigitsGo_congr : ∀ f1 f2 n, n < f1 → n < f2 →
    natDigitsGo f1 n = natDigitsGo f2 n := by
  intro f1
  induction f1 with
  | zero => omega
  | succ f1 ih =>
      intro f2 n h1 h2
      match f2 with
      | 0 => omega
      | f2 + 1 =>
          simp only [natDigitsGo]
          by_cases h : n < 10
          · simp [h]
          · rw [if_neg h, if_neg h]
            congr 1
            exact ih f2 (n / 10) (by omega) (by omega)

/-- The recursion equation of the source shape. -/
theorem natDigits_eq (n : Nat) :
    natDigits n = if n < 10 then [48 + n] else natDigits (n / 10) ++ [48 + n % 10] := by
  unfold natDigits
  rw [natDigitsGo]
  by_cases h : n < 10
  · simp [h]
  · rw [if_neg h, if_neg h]
    congr 1
    exact natDigitsGo_congr n (n / 10 + 1) (n / 10) (by omega) (by omega)

/-- Value of a run of decimal digit bytes. -/
def digitsToNat (ds : List Nat) : Nat :=
  ds.foldl (fun acc d => acc * 10 + (d - 48)) 0

/-- Split a byte list at the first non-digit byte. -/
def takeDigits : List Nat → List Nat × List Nat
  | [] => ([], [])
  | b :: bs =>
      if 48 ≤ b ∧ b ≤ 57 then
        let p := takeDigits bs
        (b :: p.1, p.2)
      else ([], b :: bs)

theorem natDigits_mem (n : Nat) : ∀ d ∈ natDigits n, 48 ≤ d ∧ d ≤ 57 := by
  intro d hd
  induction n using Nat.strong_induction_on with
  | _ n ih =>
      by_cases h : n < 10
      · rw [natDigits_eq, if_pos h] at hd
        simp only [List.mem_singleton] at hd
        omega
      · rw [natDigits_eq, if_neg h] at hd
        simp only [List.mem_append, List.mem_singleton] at hd
        rcases hd with hd | hd
        · exact ih (n / 10) (Nat.div_lt_self (by omega) (by omega)) hd
        · omega

theorem natDigits_ne_nil (n : Nat) : natDigits n ≠ [] := by
  by_cases h : n < 10
  · rw [natDigits_eq, if_pos h]; simp
  · rw [natDigits_eq, if_neg h]; simp

theorem takeDigits_append (ds rest : List Nat) (hds : ∀ d ∈ ds, 48 ≤ d ∧ d ≤ 57)
    (hrest : rest = [] ∨ ∃ b tl, rest = b :: tl ∧ ¬(48 ≤ b ∧ b ≤ 57)) :
    takeDigits (ds ++ rest) = (ds, rest) := by
  induction ds with
  | nil =>
      rcases hrest with rfl | ⟨b, tl, rfl, hb⟩
      · rfl
      · simp [takeDigits, if_neg hb]
  | cons d ds ih =>
      have hd := hds d (by simp)
      simp only [List.cons_append, takeDigits, if_pos hd, List.append_eq]
      rw [ih (fun x hx => hds x (by simp [hx]))]

theorem foldl_digits (n : Nat) :
    ∀ acc, (natDigits n).foldl (fun a d => a * 10 + (d - 48)) acc =
      acc * 10 ^ (natDigits n).length + n := by
  induction n using Nat.strong_induction_on with
  | _ n ih =>
      intro acc
      by_cases h : n < 10
      · rw [natDigits_eq, if_pos h]
        simp only [List.foldl_cons, List.foldl_nil, List.length_singleton, pow_one]
        omega
      · rw [natDigits_eq, if_neg h]
        rw [List.foldl_append, ih (n / 10) (Nat.div_lt_self (by omega) (by omega)) acc]
        simp only [List.foldl_cons, List.foldl_nil, List.length_append,
          List.length_singleton, pow_succ]
        have : acc * (10 ^ (natDigits (n / 10)).length * 10) =
            acc * 10 ^ (natDigits (n / 10)).length * 10 := by ring
        omega

theorem digitsToNat_natDigits (n : Nat) : digitsToNat (natDigits n) = n := by
  unfold digitsToNat
  rw [foldl_digits n 0]
  simp

/-! ## The token payload and its JSON serialization

tokens.py `issue_token` builds `payload = {"sid": session_id, "exp": expires}`
and serializes with `json.dumps(payload, separators=(",", ":"), sort_keys=True)`,
so the byte string is exactly `{"exp":<exp>,"sid":"<sid>"}` ("exp" sorts
before "sid").  Expiries are modelled at whole-second granularity
(`verify_token` compares `int(...)` values).  The parser below inverts
this exact shape; Python `json.loads` accepts more, but every payload a
claim touches is produced by `serializePayload`. -/

structure TokenPayload where
  sid : String
  exp : Nat
deriving DecidableEq

/-- A session id that serializes to one byte per character with no JSON
escaping: printable ASCII without `"` or backslash (uuid4 strings are). -/
def PlainSid (sid : String) : Prop :=
  ∀ c ∈ sid.data, 32 ≤ c.toNat ∧ c.toNat < 128 ∧ c ≠ '"' ∧ c ≠ '\\'

instance (sid : String) : Decidable (PlainSid sid) := by
  unfold PlainSid
  infer_instance

/-- Byte string of `json.dumps({"sid": sid, "exp": exp}, separators=(",", ":"),
sort_keys=True)`. -/
def serializePayload (sid : String) (exp : Nat) : List Nat :=
  [123, 34, 101, 120, 112, 34, 58] ++ natDigits exp ++
    [44, 34, 115, 105, 100, 34, 58, 34] ++ sid.data.map Char.toNat ++ [34, 125]

/-- Consume an expected literal byte sequence, returning the remainder. -/
def dropLiteral : List Nat → List Nat → Option (List Nat)
  | [], bs => some bs
  | _ :: _, [] => none
  | x :: xs, b :: bs => if x = b then dropLiteral xs bs else none

/-- Split a byte list at the first `"` byte. -/
def takeUntilQuote : List Nat → Option (List Nat × List Nat)
  | [] => none
  | b :: bs =>
      if b = 34 then some ([], bs)
      else
        match takeUntilQuote bs with
        | none => none
        | some (s, rest) => some (b :: s, rest)

/-- Inverse of `serializePayload` on its image (the shape `json.loads`
sees for tokens this repository issues). -/
def parsePayload (bs : List Nat) : Option TokenPayload :=
  (dropLiteral [123, 34, 101, 120, 112, 34, 58] bs).bind fun rest1 =>
    let p := takeDigits rest1
    if p.1 = [] then none
    else
      (dropLiteral [44, 34, 115, 105, 100, 34, 58, 34] p.2).bind fun rest3 =>
        (takeUntilQuote rest3).bind fun q =>
          if q.2 = [125] then
            some ⟨String.mk (q.1.map Char.ofNat), digitsToNat p.1⟩
          else none

theorem dropLiteral_append (p r : List Nat) : dropLiteral p (p ++ r) = some r := by
  induction p with
  | nil => rfl
  | cons x xs ih => simp [dropLiteral, ih]

theorem takeUntilQuote_append (xs rest : List Nat) (h : ∀ x ∈ xs, x ≠ 34) :
    takeUntilQuote (xs ++ 34 :: rest) = some (xs, rest) := by
  induction xs with
  | nil => simp [takeUntilQuote]
  | cons x tl ih =>
      have hx : x ≠ 34 := h x (by simp)
      simp only [List.cons_append, takeUntilQuote, if_neg hx, List.append_eq]
      rw [ih (fun y hy => h y (by simp [hy]))]

theorem serializePayload_bytes_lt (sid : String) (exp : Nat) (hs : PlainSid sid) :
    ∀ b ∈ serializePayload sid exp, b < 256 := by
  intro b hb
  unfold serializePayload at hb
  simp only [List.mem_append, List.mem_cons, List.not_mem_nil, or_false,
    List.mem_map] at hb
  rcases hb with ((h | h) | ⟨c, hc, rfl⟩) | h
  · rcases h with h | h
    · omega
    · have := natDigits_mem exp b h
      omega
  · omega
  · have := hs c hc
    omega
  · omega

theorem sid_bytes_ne_34 (sid : String) (hs : PlainSid sid) :
    ∀ x ∈ sid.data.map Char.toNat, x ≠ 34 := by
  intro x hx
  simp only [List.mem_map] at hx
  obtain ⟨c, hc, rfl⟩ := hx
  have hcp := hs c hc
  intro h34
  have hq : c = '"' := by
    have h0 := Char.ofNat_toNat c
    rw [h34] at h0
    exact h0.symm
  exact hcp.2.2.1 hq

theorem parsePayload_serializePayload (sid : String) (exp : Nat) (hs : PlainSid sid) :
    parsePayload (serializePayload sid exp) = some ⟨sid, exp⟩ := by
  have hshape : serializePayload sid exp =
      [123, 34, 101, 120, 112, 34, 58] ++ (natDigits exp ++
      ((44 : Nat) :: ([34, 115, 105, 100, 34, 58, 34] ++
        (sid.data.map Char.toNat ++ (34 : Nat) :: [125])))) := by
    simp [serializePayload]
  rw [hshape]
  unfold parsePayload
  rw [dropLiteral_append, Option.some_bind]
  rw [takeDigits_append (natDigits exp) _ (natDigits_mem exp)
    (Or.inr ⟨44, _, rfl, by omega⟩)]
  simp only [if_neg (natDigits_ne_nil exp)]
  rw [show ((44 : Nat) :: ([34, 115, 105, 100, 34, 58, 34] ++
      (sid.data.map Char.toNat ++ (34 : Nat) :: [125]))) =
      [44, 34, 115, 105, 100, 34, 58, 34] ++
      (sid.data.map Char.toNat ++ (34 : Nat) :: [125]) by simp]
  rw [dropLiteral_append, Option.some_bind]
  rw [takeUntilQuote_append _ _ (sid_bytes_ne_34 sid hs), Option.some_bind]
  simp only [if_pos rfl]
  rw [digitsToNat_natDigits]
  have hsid : (sid.data.map Char.toNat).map Char.ofNat = sid.data := by
    rw [List.map_map]
    have hid : ∀ l : List Char, List.map (Char.ofNat ∘ Char.toNat) l = l := by
      intro l
      induction l with
      | nil => rfl
      | cons c cs ih => simp [Char.ofNat_toNat, ih]
    exact hid sid.data
  rw [hsid]
  rfl

/-! ## HMAC session tokens (tokens.py)

`_sign(msg) = _b64url(hmac.new(SECRET, msg, sha256).digest())`.  The
digest function is a parameter `hmacDigest : secret -> msg -> digest
bytes`; every theorem states explicitly which digest (in)equalities it
relies on, and no property of SHA256 beyond them is used. -/

/-- Digest function shape: secret bytes and message bytes to digest bytes. -/
abbrev HmacFn := List Nat → List Nat → List Nat

/-- tokens.py `_sign`. -/
def _sign (hmacDigest : HmacFn) (secret : List Nat) (msg : List Nat) : String :=
  _b64url (hmacDigest secret msg)

/-- tokens.py `issue_token`: serialize `{"sid": session_id, "exp": now + ttl_s}`
deterministically, sign it, return `b64url(payload) + "." + signature`. -/
def issue_token (hmacDigest : HmacFn) (secret : List Nat) (now : Nat)
    (session_id : String) (ttl_s : Nat) : String :=
  let expires := now + ttl_s
  let msg := serializePayload session_id expires
  _b64url msg ++ "." ++ _sign hmacDigest secret msg

/-- Rejections of tokens.py `verify_token` (each a `ValueError` in the
source): wrong structure, signature mismatch, expiry passed, or a payload
missing `sid` / unparseable. -/
inductive TokenError
  | invalidFormat
  | invalidSignature
  | expired
  | malformedPayload
deriving DecidableEq

/-- tokens.py `verify_token`: split at the first dot, decode the body,
recompute the signature and compare (before ever reading the payload),
then parse the payload and check expiry.  The source checks a missing
`sid` key after the expiry check; our parser requires `sid`, so a payload
that parses always carries one, and no claim distinguishes the two
malformed-payload orders. -/
def verify_token (hmacDigest : HmacFn) (secret : List Nat) (now : Nat)
    (token : String) : Except TokenError TokenPayload :=
  match splitAtDot token.data with
  | none => .error .invalidFormat
  | some (body, sig) =>
      let msg := _b64url_decode (String.mk body)
      let expected := _sign hmacDigest secret msg
      if String.mk sig = expected then
        match parsePayload msg with
        | none => .error .malformedPayload
        | some payload =>
            if payload.exp < now then .error .expired
            else .ok payload
      else .error .invalidSignature

/-- Splitting an issued token at its first dot recovers the encoded
payload and the signature string. -/
theorem splitAtDot_issue_token (hmacDigest : HmacFn) (secret : List Nat)
    (now : Nat) (sid : String) (ttl : Nat) (hs : PlainSid sid) :
    splitAtDot (issue_token hmacDigest secret now sid ttl).data =
      some ((_b64url (serializePayload sid (now + ttl))).data,
        (_sign hmacDigest secret (serializePayload sid (now + ttl))).data) := by
  unfold issue_token
  have hdata : (_b64url (serializePayload sid (now + ttl)) ++ "." ++
      _sign hmacDigest secret (serializePayload sid (now + ttl))).data =
      (_b64url (serializePayload sid (now + ttl))).data ++ '.' ::
        (_sign hmacDigest secret (serializePayload sid (now + ttl))).data := by
    simp [String.data_append]
  rw [hdata]
  exact splitAtDot_append _ _
    (b64url_no_dot _ (serializePayload_bytes_lt sid (now + ttl) hs))

/-- Core round-trip fact: verifying an issued token at any time `t` not
past its expiry succeeds and returns the issued sid with expiry exactly
`now + ttl`. -/
theorem verify_issue (hmacDigest : HmacFn) (secret : List Nat) (now t : Nat)
    (sid : String) (ttl : Nat) (hs : PlainSid sid) (ht : t ≤ now + ttl) :
    verify_token hmacDigest secret t (issue_token hmacDigest secret now sid ttl) =
      .ok ⟨sid, now + ttl⟩ := by
  unfold verify_token
  rw [splitAtDot_issue_token hmacDigest secret now sid ttl hs]
  simp only
  rw [show String.mk (_b64url (serializePayload sid (now + ttl))).data =
      _b64url (serializePayload sid (now + ttl)) from rfl]
  rw [b64url_roundtrip _ (serializePayload_bytes_lt sid (now + ttl) hs)]
  rw [show String.mk (_sign hmacDigest secret (serializePayload sid (now + ttl))).data =
      _sign hmacDigest secret (serializePayload sid (now + ttl)) from rfl]
  rw [if_pos rfl]
  rw [parsePayload_serializePayload sid (now + ttl) hs]
  simp only
  rw [if_neg (by omega)]

theorem b64url_inj (a b : List Nat) (ha : ∀ x ∈ a, x < 256) (hb : ∀ x ∈ b, x < 256)
    (h : _b64url a = _b64url b) : a = b := by
  have := congrArg _b64url_decode h
  rwa [b64url_roundtrip a ha, b64url_roundtrip b hb] at this

/-- Verifying an issued token past its expiry fails with `Expired`, even
though format and signature are valid. -/
theorem verify_issue_expired (hmacDigest : HmacFn) (secret : List Nat) (now t : Nat)
    (sid : String) (ttl : Nat) (hs : PlainSid sid) (ht : now + ttl < t) :
    verify_token hmacDigest secret t (issue_token hmacDigest secret now sid ttl) =
      .error .expired := by
  unfold verify_token
  rw [splitAtDot_issue_token hmacDigest secret now sid ttl hs]
  simp only
  rw [show String.mk (_b64url (serializePayload sid (now + ttl))).data =
      _b64url (serializePayload sid (now + ttl)) from rfl]
  rw [b64url_roundtrip _ (serializePayload_bytes_lt sid (now + ttl) hs)]
  rw [show String.mk (_sign hmacDigest secret (serializePayload sid (now + ttl))).data =
      _sign hmacDigest secret (serializePayload sid (now + ttl)) from rfl]
  rw [if_pos rfl]
  rw [parsePayload_serializePayload sid (now + ttl) hs]
  simp only
  rw [if_pos (by omega)]

/-- Verifying `b64url(msg) + "." + S` for a signature string `S` other
than `_sign(msg)` fails with `InvalidSignature` - before the payload is
ever parsed or its expiry consulted. -/
theorem verify_wrong_sig (hmacDigest : HmacFn) (secret : List Nat) (t : Nat)
    (msgB : List Nat) (S : String) (hb : ∀ x ∈ msgB, x < 256)
    (hS : S ≠ _sign hmacDigest secret msgB) :
    verify_token hmacDigest secret t (_b64url msgB ++ "." ++ S) =
      .error .invalidSignature := by
  unfold verify_token
  have hdata : (_b64url msgB ++ "." ++ S).data = (_b64url msgB).data ++ '.' :: S.data := by
    simp [String.data_append]
  rw [hdata, splitAtDot_append _ _ (b64url_no_dot _ hb)]
  simp only
  rw [show String.mk (_b64url msgB).data = _b64url msgB from rfl]
  rw [b64url_roundtrip _ hb]
  rw [show String.mk S.data = S from rfl]
  rw [if_neg hS]

/-! ## Job state and store (jobs.py)

`_JOBS: Dict[tuple[str, str], Job]` becomes an association list with dict
semantics (unique keys are a dict invariant, but the lookup lemmas below
only need first-match reasoning).  Timestamps inside a `Job` are `Rat`
(raw `time.time()` floats in the source); `result` payloads are opaque
strings; the `task` handle is reduced to its observable `done()` flag. -/

inductive JobState
  | pending
  | running
  | done
  | failed
  | canceled
  | timed_out
deriving DecidableEq

/-- States the source treats as terminal: `DONE, FAILED, TIMED_OUT, CANCELED`. -/
def JobState.isTerminal : JobState → Bool
  | .done | .failed | .timed_out | .canceled => true
  | .pending | .running => false

/-- jobs.py `Job` dataclass. `taskDone = none` models `task=None`;
`taskDone = some d` a scheduled `asyncio.Task` with `task.done() = d`. -/
structure Job where
  job_id : String
  session_id : String
  created_at : ℚ := 0
  started_at : Option ℚ := none
  finished_at : Option ℚ := none
  state : JobState := .pending
  progress : ℚ := 0
  status : String := ""
  result : Option String := none
  error : Option String := none
  error_type : Option String := none
  traceback : Option String := none
  timeout_s : Option ℚ := some 300
  taskDone : Option Bool := none
deriving DecidableEq

abbrev JobKey := String × String

/-- jobs.py `jk`. -/
def jk (sid : String) (jid : String) : JobKey := (sid, jid)

abbrev JobStore := List (JobKey × Job)

/-- Dict lookup `_JOBS.get(key)`. -/
def storeGet (s : JobStore) (k : JobKey) : Option Job :=
  match s.find? (fun e => e.1 == k) with
  | none => none
  | some e => some e.2

/-- Dict assignment `_JOBS[key] = job`. -/
def storePut (s : JobStore) (k : JobKey) (j : Job) : JobStore :=
  if s.any (fun e => e.1 == k) then
    s.map (fun e => if e.1 == k then (k, j) else e)
  else s ++ [(k, j)]

/-- Dict removal `_JOBS.pop(key, None)` (the stored value is read by the
caller beforehand). -/
def storePop (s : JobStore) (k : JobKey) : JobStore :=
  s.filter (fun e => !(e.1 == k))

/-- Keep-condition of one `sweep_jobs` loop iteration (`continue` keeps the
entry, falling through to `_JOBS.pop` removes it). -/
def sweepKeep (now max_age_s : ℚ) (keep_running : Bool) (j : Job) : Bool :=
  if now - j.finished_at.getD j.created_at ≤ max_age_s then true
  else if keep_running && (j.state == .pending || j.state == .running) then true
  else false

/-- jobs.py `sweep_jobs` (store transformation; the removed-count return
value is the length difference and no claim reads it). -/
def sweep_jobs (s : JobStore) (now : ℚ) (max_age_s : ℚ) (keep_running : Bool) : JobStore :=
  s.filter (fun e => sweepKeep now max_age_s keep_running e.2)

theorem storeGet_eq_none_iff (s : JobStore) (k : JobKey) :
    storeGet s k = none ↔ ∀ e ∈ s, e.1 ≠ k := by
  unfold storeGet
  constructor
  · intro h e he
    match hf : s.find? (fun e => e.1 == k) with
    | some x => rw [hf] at h; cases h
    | none =>
        have := List.find?_eq_none.mp hf e he
        simpa using this
  · intro h
    rw [List.find?_eq_none.mpr (fun e he => by simpa using h e he)]

theorem storeGet_filter_none (s : JobStore) (k : JobKey) (p : JobKey × Job → Bool)
    (h : storeGet s k = none) : storeGet (s.filter p) k = none := by
  rw [storeGet_eq_none_iff] at h ⊢
  intro e he
  exact h e (List.mem_filter.mp he).1

/-- If the first entry under key `k` survives a filter, it is still the
first entry under `k` afterwards. -/
theorem find?_filter_of_found {α : Type} (p q : α → Bool) (l : List α) (a : α)
    (hf : l.find? p = some a) (hq : q a = true) : (l.filter q).find? p = some a := by
  induction l with
  | nil => cases hf
  | cons x xs ih =>
      by_cases hx : p x = true
      · rw [List.find?_cons_of_pos xs hx] at hf
        injection hf with hf
        subst hf
        rw [List.filter_cons, if_pos hq, List.find?_cons_of_pos _ hx]
      · rw [List.find?_cons_of_neg xs hx] at hf
        rw [List.filter_cons]
        by_cases hqx : q x = true
        · rw [if_pos hqx, List.find?_cons_of_neg _ hx]
          exact ih hf
        · rw [if_neg hqx]
          exact ih hf

theorem storeGet_filter_of_get (s : JobStore) (k : JobKey) (j : Job)
    (p : JobKey × Job → Bool) (h : storeGet s k = some j)
    (hp : ∀ e ∈ s, e.1 = k → e.2 = j → p e = true) :
    storeGet (s.filter p) k = some j := by
  unfold storeGet at h ⊢
  match hf : s.find? (fun e => e.1 == k) with
  | none => rw [hf] at h; cases h
  | some e =>
      rw [hf] at h
      cases h
      have hmem := List.mem_of_find?_eq_some hf
      have hkey : e.1 = k := by
        have := List.find?_some hf
        simpa using this
      rw [find?_filter_of_found _ p s e hf (hp e hmem hkey rfl)]

theorem storeGet_sweep_none (s : JobStore) (now max_age : ℚ) (kr : Bool) (k : JobKey)
    (h : storeGet s k = none) : storeGet (sweep_jobs s now max_age kr) k = none :=
  storeGet_filter_none s k _ h

theorem storeGet_storePop_self (s : JobStore) (k : JobKey) :
    storeGet (storePop s k) k = none := by
  rw [storeGet_eq_none_iff]
  intro e he
  unfold storePop at he
  have := (List.mem_filter.mp he).2
  simpa using this

/-! ## Job control API (long_job_tools.py)

Each exposed operation is `requires_token`-decorated: an empty/missing
`token` returns a structured `{"error": "missing token"}` value, an
invalid one raises `ValueError`, and only then does the body run,
re-deriving the session id from the same token via `retrieve_sid` (we
collapse the two identical verifications into one).  A `ToolError`
models fastmcp's structured tool failure. -/

/-- Result of one control-API call on the wire: the `missing token`
dict, a propagated token `ValueError`, a raised fastmcp `ToolError`, or a
successful response payload. -/
inductive ApiResult (α : Type)
  | missingToken
  | authError (e : TokenError)
  | toolError (msg : String)
  | ok (resp : α)
deriving DecidableEq

/-- Snapshot dict returned by `get_job_status`. -/
structure StatusResp where
  job_id : String
  state : JobState
  progress : ℚ
  status : String
  created_at : ℚ
  started_at : Option ℚ
  finished_at : Option ℚ
  error : Option String
deriving DecidableEq

/-- Dict returned by `get_job_result`: fields absent from the Python dict
in a given branch are `none`. -/
structure ResultResp where
  job_id : String
  state : JobState
  result : Option String
  error : Option String
  error_type : Option String
deriving DecidableEq

/-- Dict returned by `cancel_job`. -/
inductive CancelResp
  | cancelRequested (job_id : String)
  | stateIs (job_id : String) (state : JobState)
deriving DecidableEq

/-- The `ToolError` message raised for an unresolved `(session, job)` key. -/
def noSuchJobMsg : String := "No such job for this session"

/-- long_job_tools.py `get_job_status` (read-only snapshot). -/
def get_job_status (hmacDigest : HmacFn) (secret : List Nat) (now : Nat)
    (store : JobStore) (job_id : String) (token : String) : ApiResult StatusResp :=
  if token = "" then .missingToken
  else
    match verify_token hmacDigest secret now token with
    | .error e => .authError e
    | .ok payload =>
        match storeGet store (jk payload.sid job_id) with
        | none => .toolError noSuchJobMsg
        | some job =>
            .ok ⟨job.job_id, job.state, job.progress, job.status, job.created_at,
              job.started_at, job.finished_at, job.error⟩

/-- The key-resolution half of `get_job_result`, run on the already-swept
store: a terminal job is popped (one-shot delivery) and its outcome dict
returned; a pending/running job is left in place with a `job not
complete` answer. -/
def resolve_job_result (store1 : JobStore) (key : JobKey) :
    ApiResult ResultResp × JobStore :=
  match storeGet store1 key with
  | none => (.toolError noSuchJobMsg, store1)
  | some job =>
      if job.state.isTerminal then
        (.ok ⟨job.job_id, job.state,
            (if job.state = .done then job.result else none),
            job.error, job.error_type⟩,
          storePop store1 key)
      else
        (.ok ⟨job.job_id, job.state, none, some "job not complete", none⟩, store1)

/-- long_job_tools.py `get_job_result`: sweeps the whole store first
(`sweep_jobs(max_age_s=3600, keep_running=True)`), then resolves the key.
Returns the response and the store state after the call. -/
def get_job_result (hmacDigest : HmacFn) (secret : List Nat) (now : Nat)
    (store : JobStore) (job_id : String) (token : String) :
    ApiResult ResultResp × JobStore :=
  if token = "" then (.missingToken, store)
  else
    match verify_token hmacDigest secret now token with
    | .error e => (.authError e, store)
    | .ok payload =>
        resolve_job_result (sweep_jobs store (now : ℚ) (60 * 60) true)
          (jk payload.sid job_id)

/-- long_job_tools.py `cancel_job` (the store itself is not modified;
`task.cancel()` is a signal to the scheduled unit). -/
def cancel_job (hmacDigest : HmacFn) (secret : List Nat) (now : Nat)
    (store : JobStore) (job_id : String) (token : String) : ApiResult CancelResp :=
  if token = "" then .missingToken
  else
    match verify_token hmacDigest secret now token with
    | .error e => .authError e
    | .ok payload =>
        match storeGet store (jk payload.sid job_id) with
        | none => .toolError noSuchJobMsg
        | some job =>
            match job.taskDone with
            | some false => .cancelRequested job_id |> .ok
            | _ => .stateIs job_id job.state |> .ok

/-! ## Launch adapter (jobs.py `_make_longjob_launch_wrapper` and the
long_job_server.py variant)

Call-time keyword arguments: `token`, `timeout_s` and `progress_cb` are
popped before forwarding; everything else is forwarded to the wrapped
callable untouched.  Forwarded values are opaque except for the markers
the adapters themselves inject. -/

/-- A forwarded keyword-argument value: an opaque caller-supplied value,
the progress bridge closure injected by the jobs.py adapter, or the
verified session id injected by the long_job_server.py adapter. -/
inductive KwargVal
  | str (s : String)
  | progressBridge
  | sessionIdVal (sid : String)
deriving DecidableEq

/-- Call-time arguments of a launch invocation after the FastMCP layer:
`token` is `kwargs.pop("token", "")` (so `""` means absent), `timeout_s`
is `kwargs.pop("timeout_s", None)`, `progress_cb_supplied` records
whether the caller passed a `progress_cb` entry, and `extra` holds every
other keyword argument in order. -/
structure LaunchKwargs where
  token : String := ""
  timeout_s : Option ℚ := none
  progress_cb_supplied : Bool := false
  extra : List (String × KwargVal) := []
deriving DecidableEq

/-- The keyword arguments jobs.py forwards to `fn` inside `_work`:
`call_kwargs` with `token`/`timeout_s`/`progress_cb` popped, plus the
`_progress_cb` bridge whenever `fn` declares a `progress_cb` parameter
(the pop above guarantees `"progress_cb" not in call_kwargs`, so the
branch always injects; a caller-supplied callback has been popped and is
never forwarded). `session_id` is NOT injected by this variant. -/
def jobs_forwarded (fnParams : List String) (extra : List (String × KwargVal)) :
    List (String × KwargVal) :=
  if fnParams.contains "progress_cb" then extra ++ [("progress_cb", .progressBridge)]
  else extra

/-- The keyword arguments the long_job_server.py variant forwards:
`kwargs.setdefault("session_id", session_id)` when `fn` declares
`session_id` - a caller-supplied entry wins over the verified id. -/
def server_forwarded (fnParams : List String) (session_id : String)
    (extra : List (String × KwargVal)) : List (String × KwargVal) :=
  if fnParams.contains "session_id" then
    if extra.any (fun e => e.1 == "session_id") then extra
    else extra ++ [("session_id", .sessionIdVal session_id)]
  else extra

/-- Public signature synthesized by jobs.py at registration time:
`fn`'s parameters plus keyword-only `token`, `timeout_s`, `progress_cb`
where missing.  (`session_id`, when `fn` declares it, stays in the list.) -/
def launchSignatureParams (fnParams : List String) : List String :=
  ((fnParams ++ (if fnParams.contains "token" then [] else ["token"])) ++
    (if fnParams.contains "timeout_s" then [] else ["timeout_s"])) ++
    (if fnParams.contains "progress_cb" then [] else ["progress_cb"])

/-- Public signature synthesized by the long_job_server.py variant
(no `progress_cb` handling there). -/
def launchSignatureParamsServer (fnParams : List String) : List String :=
  (fnParams ++ (if fnParams.contains "token" then [] else ["token"])) ++
    (if fnParams.contains "timeout_s" then [] else ["timeout_s"])

/-- The background unit scheduled by `asyncio.create_task`: which job it
belongs to and the keyword arguments the wrapped callable will receive. -/
structure ScheduledWork where
  key : JobKey
  forwarded : List (String × KwargVal)
deriving DecidableEq

/-- Immediate return value of a launch call. -/
inductive LaunchOutcome
  | missingToken
  | authError (e : TokenError)
  | launched (job_id : String) (state : JobState) (progress : ℚ) (status : String)
deriving DecidableEq

/-- Call-time behavior of the jobs.py `wrapper` closure: verify the token
(fail closed first), pop the control parameters, create and store a
PENDING `Job` under the verified session, schedule `_work`, and return the
job descriptor immediately.  Returns (outcome, store after the call,
scheduled background unit if any). -/
def launch_wrapper (hmacDigest : HmacFn) (secret : List Nat) (fnParams : List String)
    (now : Nat) (store : JobStore) (fresh_job_id : String) (kw : LaunchKwargs) :
    LaunchOutcome × JobStore × Option ScheduledWork :=
  if kw.token = "" then (.missingToken, store, none)
  else
    match verify_token hmacDigest secret now kw.token with
    | .error e => (.authError e, store, none)
    | .ok payload =>
        let session_id := payload.sid
        let job : Job :=
          { job_id := fresh_job_id, session_id := session_id,
            created_at := (now : ℚ), timeout_s := kw.timeout_s }
        let key := jk session_id fresh_job_id
        let store1 := storePut store key job
        let work : ScheduledWork := ⟨key, jobs_forwarded fnParams kw.extra⟩
        (.launched fresh_job_id job.state job.progress job.status, store1, some work)

/-- Call-time behavior of the long_job_server.py `wrapper` variant
(differs in `session_id` injection and in not handling `progress_cb`). -/
def launch_wrapper_server (hmacDigest : HmacFn) (secret : List Nat)
    (fnParams : List String) (now : Nat) (store : JobStore) (fresh_job_id : String)
    (kw : LaunchKwargs) : LaunchOutcome × JobStore × Option ScheduledWork :=
  if kw.token = "" then (.missingToken, store, none)
  else
    match verify_token hmacDigest secret now kw.token with
    | .error e => (.authError e, store, none)
    | .ok payload =>
        let session_id := payload.sid
        let job : Job :=
          { job_id := fresh_job_id, session_id := session_id,
            created_at := (now : ℚ), timeout_s := kw.timeout_s }
        let key := jk session_id fresh_job_id
        let store1 := storePut store key job
        let work : ScheduledWork := ⟨key, server_forwarded fnParams session_id kw.extra⟩
        (.launched fresh_job_id job.state job.progress job.status, store1, some work)

/-! ## Job lifecycle (`_work` + `_run_with_timeout`) -/

/-- Outcome of awaiting the wrapped callable inside `_work` under
`asyncio.wait_for`: a returned value (stamped at `t_done` by `_work`'s
DONE block), a raised exception, `asyncio.TimeoutError`, or
`asyncio.CancelledError`. -/
inductive ExecOutcome
  | success (result : String) (t_done : ℚ)
  | raised (msg : String) (ty : String)
  | timedOut
  | cancelledDuringRun
deriving DecidableEq

/-- The mutations `_work` performs as soon as it starts running. -/
def runJobStart (job : Job) (t_start : ℚ) : Job :=
  { job with state := .running, started_at := some t_start, progress := 1 / 100 }

/-- Terminal bookkeeping: `_work`'s DONE block on success, and
`_run_with_timeout`'s except/finally blocks otherwise.  The `finally`
block stamps `finished_at` at `t_final` whenever it is still unset and the
state is terminal. -/
def finalizeJob (job : Job) (outcome : ExecOutcome) (t_final : ℚ) : Job :=
  let j1 :=
    match outcome with
    | .success r t_done =>
        { job with
            result := some r, progress := 1, state := .done,
            finished_at := some t_done }
    | .raised msg ty =>
        { job with
            state := .failed, error := some msg, error_type := some ty,
            traceback := some (ty ++ ": " ++ msg) }
    | .timedOut =>
        { job with
            state := .timed_out, error := some "timed out",
            error_type := some "TimeoutError" }
    | .cancelledDuringRun =>
        { job with
            state := .canceled, error := some "canceled",
            error_type := some "CancelledError" }
  if j1.finished_at.isNone && j1.state.isTerminal then
    { j1 with finished_at := some t_final }
  else j1

/-! ## Progress callback (`_progress_cb` inside jobs.py `_work`) -/

/-- The clamp in `_progress_cb`: fractions below 0 become 0, above 1
become 1. -/
def clampFraction (f : ℚ) : ℚ :=
  if f < 0 then 0 else if f > 1 then 1 else f

/-- One `progress_cb(fraction, message)` report: the clamped fraction and
the message are stored into the job (marshaled onto the loop via
`call_soon_threadsafe`); the previous progress value is not consulted. -/
def progressUpdate (job : Job) (fraction : ℚ) (message : String) : Job :=
  { job with progress := clampFraction fraction, status := message }

/-! ## Chunked transcription (youtube_audio_transcript.py)

`transcribe_with_whisper` / `transcribe_with_whisper_async` share the
same chunking arithmetic: `samples_per_chunk = int(chunk_duration *
16000)`, `overlap_samples = int(overlap * 16000)`, a `ValueError` when
`samples_per_chunk <= 0`, the overlap-disabling guard, `step =
samples_per_chunk - overlap_samples` (re-defaulted to `samples_per_chunk`
if nonpositive), then `for start_sample in range(0, num_samples, step)`
with a break once `end_sample >= num_samples`.  Per-chunk Whisper output
is opaque; we model the chunk boundary plan. -/

/-- Python `int()` on a rational: truncation toward zero. -/
def intTrunc (q : ℚ) : Int :=
  if 0 ≤ q then ((q.num.toNat / q.den : Nat) : Int)
  else -(((-q.num).toNat / q.den : Nat) : Int)

/-- Fuel-driven worker for `chunkStarts` (structural recursion keeps
concrete chunk plans kernel-computable). -/
def chunkStartsGo (fuel num spc step start : Nat) : List Nat :=
  match fuel with
  | 0 => []
  | fuel + 1 =>
      if step = 0 then []
      else if start < num then
        if num ≤ start + spc then [start]
        else start :: chunkStartsGo fuel num spc step (start + step)
      else []

/-- Start samples visited by the chunk loop: `range(0, num, step)` with a
break after the first chunk whose end reaches `num`.  (`step = 0` cannot
be produced by the guards; the `[]` answer for it is dead code.) -/
def chunkStarts (num spc step start : Nat) : List Nat :=
  chunkStartsGo (num + 1 - start) num spc step start

theorem chunkStartsGo_congr : ∀ f1 f2 num spc step start, num - start < f1 →
    num - start < f2 → chunkStartsGo f1 num spc step start = chunkStartsGo f2 num spc step start := by
  intro f1
  induction f1 with
  | zero => omega
  | succ f1 ih =>
      intro f2 num spc step start h1 h2
      match f2 with
      | 0 => omega
      | f2 + 1 =>
          simp only [chunkStartsGo]
          by_cases hstep : step = 0
          · simp [hstep]
          · rw [if_neg hstep, if_neg hstep]
            by_cases hlt : start < num
            · rw [if_pos hlt, if_pos hlt]
              by_cases hend : num ≤ start + spc
              · rw [if_pos hend, if_pos hend]
              · rw [if_neg hend, if_neg hend]
                congr 1
                exact ih f2 num spc step (start + step) (by omega) (by omega)
            · rw [if_neg hlt, if_neg hlt]

/-- Any fuel gives the empty answer once the loop is exhausted. -/
theorem chunkStartsGo_of_le (f num spc step start : Nat) (h : num ≤ start) :
    chunkStartsGo f num spc step start = [] := by
  match f with
  | 0 => rfl
  | f + 1 =>
      rw [chunkStartsGo]
      by_cases hstep : step = 0
      · simp [hstep]
      · rw [if_neg hstep, if_neg (by omega)]

/-- The recursion equation of the source loop shape. -/
theorem chunkStarts_eq (num spc step start : Nat) :
    chunkStarts num spc step start =
      if step = 0 then []
      else if start < num then
        if num ≤ start + spc then [start]
        else start :: chunkStarts num spc step (start + step)
      else [] := by
  unfold chunkStarts
  rw [show num + 1 - start = (num - start) + (1 - (start - num)) by omega]
  by_cases hge : num < start
  · rw [show num - start + (1 - (start - num)) = 0 by omega]
    rw [chunkStartsGo]
    by_cases hstep : step = 0
    · simp [hstep]
    · rw [if_neg hstep, if_neg (by omega : ¬ start < num)]
  · rw [show num - start + (1 - (start - num)) = (num - start) + 1 by omega]
    rw [chunkStartsGo]
    by_cases hstep : step = 0
    · simp [hstep]
    · rw [if_neg hstep, if_neg hstep]
      by_cases hlt : start < num
      · rw [if_pos hlt, if_pos hlt]
        by_cases hend : num ≤ start + spc
        · rw [if_pos hend, if_pos hend]
        · rw [if_neg hend, if_neg hend]
          congr 1
          by_cases hin : start + step ≤ num
          · exact chunkStartsGo_congr (num - start) (num + 1 - (start + step)) num spc step
              (start + step) (by omega) (by omega)
          · rw [chunkStartsGo_of_le (num - start) num spc step (start + step) (by omega)]
            rw [chunkStartsGo_of_le (num + 1 - (start + step)) num spc step (start + step)
              (by omega)]
      · rw [if_neg hlt, if_neg hlt]

/-- Chunk plan of `transcribe_with_whisper(_async)`: either the
`ValueError` message or the list of `(start_sample, end_sample)` slices
together with the overlap-disabled-warning flag. -/
def transcribeChunkPlan (numSamples : Nat) (chunk_duration overlap : ℚ) :
    Except String (List (Nat × Nat) × Bool) :=
  let sample_rate : ℚ := 16000
  let samples_per_chunk := intTrunc (chunk_duration * sample_rate)
  let overlap_samples := intTrunc (overlap * sample_rate)
  if samples_per_chunk ≤ 0 then .error "chunk_duration must be > 0"
  else
    let overlapDisabled := samples_per_chunk ≤ overlap_samples
    let overlap_samples := if overlapDisabled then 0 else overlap_samples
    let step0 := samples_per_chunk - overlap_samples
    let step := if step0 ≤ 0 then samples_per_chunk else step0
    let spc := samples_per_chunk.toNat
    let stepN := step.toNat
    .ok ((chunkStarts numSamples spc stepN 0).map
      (fun s => (s, min (s + spc) numSamples)), overlapDisabled)

/-- Consecutive starts differ by exactly `step`. -/
theorem chunkStarts_chain (num spc step : Nat) (hstep : 0 < step) (start : Nat) :
    List.Chain' (fun a b => b = a + step) (chunkStarts num spc step start) := by
  rw [chunkStarts_eq]
  rw [if_neg (by omega)]
  by_cases h : start < num
  · rw [if_pos h]
    by_cases hend : num ≤ start + spc
    · rw [if_pos hend]
      simp
    · rw [if_neg hend]
      have ih := chunkStarts_chain num spc step hstep (start + step)
      refine List.chain'_cons'.mpr ⟨?_, ih⟩
      intro y hy
      rw [chunkStarts_eq] at hy
      rw [if_neg (by omega)] at hy
      by_cases h2 : start + step < num
      · rw [if_pos h2] at hy
        by_cases h3 : num ≤ start + step + spc
        · rw [if_pos h3] at hy
          simp at hy
          omega
        · rw [if_neg h3] at hy
          simp at hy
          omega
      · rw [if_neg h2] at hy
        cases hy
  · rw [if_neg h]
    simp
termination_by num - start
decreasing_by omega

/-! ## Claim theorems

Concrete instantiations use a toy digest function (a sum modulo 256):
the generic theorems above hold for any `HmacFn` and state the digest
(in)equalities they rely on as hypotheses, which the toy function lets a
witness discharge by computation. -/

instance {ε α : Type} [DecidableEq ε] [DecidableEq α] : DecidableEq (Except ε α) :=
  fun x y =>
    match x, y with
    | .ok a, .ok b =>
        if h : a = b then isTrue (by rw [h])
        else isFalse (by intro hh; cases hh; exact h rfl)
    | .error a, .error b =>
        if h : a = b then isTrue (by rw [h])
        else isFalse (by intro hh; cases hh; exact h rfl)
    | .ok _, .error _ => isFalse (by intro hh; cases hh)
    | .error _, .ok _ => isFalse (by intro hh; cases hh)

/-- Toy digest for witnesses: sum of secret and message bytes, modulo 256. -/
def demoHmac : HmacFn := fun key msg => [(key.sum + msg.sum) % 256]

def demoSecret : List Nat := [7]

/-- A token for session "s" issued at time 0 with a 9999-second ttl. -/
def demoToken : String := issue_token demoHmac demoSecret 0 "s" 9999

/-- A token for session "s2" issued at time 0 with a 9999-second ttl. -/
def demoToken2 : String := issue_token demoHmac demoSecret 0 "s2" 9999

/-- A DONE job of session "s" that finished at time 0. -/
def demoOldDoneJob : Job :=
  { job_id := "j1", session_id := "s", created_at := 0,
    finished_at := some 0, state := .done, result := some "r" }

def demoOldStore : JobStore := [(jk "s" "j1", demoOldDoneJob)]

/-- A RUNNING job of session "s" at progress 9/10. -/
def demoRunningJob : Job :=
  { job_id := "j2", session_id := "s", created_at := 0,
    state := .running, progress := mkRat 9 10 }

/-- C5: round-trip - verifying the token produced by `issue_token sid ttl`
at any time `t` at or before its expiry succeeds and yields a payload
carrying the issued sid and an expiry within `[now + ttl - ε, now + ttl]`
for every `ε` (in this whole-second model the expiry is exactly
`now + ttl`).  `PlainSid` restricts to session ids that serialize one
byte per character with no JSON escaping, which the uuid4 sids the source
issues always are. -/
theorem C5_issue_then_verify_roundtrip (hmacDigest : HmacFn) (secret : List Nat)
    (now t ttl ε : Nat) (sid : String) (hsid : PlainSid sid) (ht : t ≤ now + ttl) :
    ∃ payload : TokenPayload,
      verify_token hmacDigest secret t (issue_token hmacDigest secret now sid ttl) =
        .ok payload ∧
      payload.sid = sid ∧ now + ttl - ε ≤ payload.exp ∧ payload.exp ≤ now + ttl :=
  ⟨⟨sid, now + ttl⟩, verify_issue hmacDigest secret now t sid ttl hsid ht, rfl,
    Nat.sub_le (now + ttl) ε, le_refl _⟩

/-- C5 witness: the round-trip at a concrete token. -/
theorem C5_issue_then_verify_roundtrip_witness :
    ∃ payload : TokenPayload,
      verify_token demoHmac demoSecret 9000 (issue_token demoHmac demoSecret 0 "s" 9999) =
        .ok payload ∧
      payload.sid = "s" ∧ 0 + 9999 - 5 ≤ payload.exp ∧ payload.exp ≤ 0 + 9999 :=
  C5_issue_then_verify_roundtrip demoHmac demoSecret 0 9000 9999 5 "s" (by decide) (by decide)

/-- C6: a token signed under secret `K1` fails with `InvalidSignature`
under secret `K2` whenever the two digests differ; an issued token past
its expiry fails with `Expired` even though format and signature are
valid; and a token whose payload bytes were replaced while keeping the
old signature fails with `InvalidSignature` even when the tampered
payload's expiry is already in the past - the signature comparison comes
before the expiry field is ever consulted. -/
theorem C6_verify_rejections (hmacDigest : HmacFn) (K1 K2 : List Nat)
    (now ttl t exp2 : Nat) (sid sid2 : String)
    (hsid : PlainSid sid) (hsid2 : PlainSid sid2)
    (hb1 : ∀ b ∈ hmacDigest K1 (serializePayload sid (now + ttl)), b < 256)
    (hb2 : ∀ b ∈ hmacDigest K2 (serializePayload sid (now + ttl)), b < 256)
    (hb3 : ∀ b ∈ hmacDigest K1 (serializePayload sid2 exp2), b < 256)
    (hK : hmacDigest K1 (serializePayload sid (now + ttl)) ≠
      hmacDigest K2 (serializePayload sid (now + ttl)))
    (htamper : hmacDigest K1 (serializePayload sid2 exp2) ≠
      hmacDigest K1 (serializePayload sid (now + ttl)))
    (hexp : now + ttl < t) (_hexp2 : exp2 < t) :
    verify_token hmacDigest K2 t (issue_token hmacDigest K1 now sid ttl) =
      .error .invalidSignature ∧
    verify_token hmacDigest K1 t (issue_token hmacDigest K1 now sid ttl) =
      .error .expired ∧
    verify_token hmacDigest K1 t
      (_b64url (serializePayload sid2 exp2) ++ "." ++
        _sign hmacDigest K1 (serializePayload sid (now + ttl))) =
      .error .invalidSignature := by
  refine ⟨?_, verify_issue_expired hmacDigest K1 now t sid ttl hsid hexp, ?_⟩
  · show verify_token hmacDigest K2 t
        (_b64url (serializePayload sid (now + ttl)) ++ "." ++
          _sign hmacDigest K1 (serializePayload sid (now + ttl))) =
      .error .invalidSignature
    apply verify_wrong_sig hmacDigest K2 t _ _ (serializePayload_bytes_lt sid (now + ttl) hsid)
    intro h
    exact hK (b64url_inj _ _ hb1 hb2 h)
  · apply verify_wrong_sig hmacDigest K1 t _ _ (serializePayload_bytes_lt sid2 exp2 hsid2)
    intro h
    exact htamper (b64url_inj _ _ hb1 hb3 h).symm

/-- C6 witness: the three rejections at concrete tokens (secrets `[7]` and
`[8]`, a tampered payload for sid "t" with expiry 5, verification time
20000). -/
theorem C6_verify_rejections_witness :
    verify_token demoHmac [8] 20000 (issue_token demoHmac [7] 0 "s" 9999) =
      .error .invalidSignature ∧
    verify_token demoHmac [7] 20000 (issue_token demoHmac [7] 0 "s" 9999) =
      .error .expired ∧
    verify_token demoHmac [7] 20000
      (_b64url (serializePayload "t" 5) ++ "." ++
        _sign demoHmac [7] (serializePayload "s" (0 + 9999))) =
      .error .invalidSignature :=
  C6_verify_rejections demoHmac [7] [8] 0 9999 20000 5 "s" "t" (by decide) (by decide)
    (by decide) (by decide) (by decide) (by decide) (by decide) (by decide) (by decide)

/-- C3: a launch invocation whose token is missing (empty) or fails
verification is rejected synchronously: the outcome is the structured
`missing token` answer or the propagated auth error, the job store is
returned unchanged (no Job created), and no background unit is
scheduled. -/
theorem C3_launch_fails_closed (hmacDigest : HmacFn) (secret : List Nat)
    (fnParams : List String) (now : Nat) (store : JobStore) (fresh_job_id : String)
    (kw : LaunchKwargs)
    (hbad : kw.token = "" ∨ ∃ e, verify_token hmacDigest secret now kw.token = .error e) :
    (launch_wrapper hmacDigest secret fnParams now store fresh_job_id kw).2.1 = store ∧
    (launch_wrapper hmacDigest secret fnParams now store fresh_job_id kw).2.2 = none ∧
    ((launch_wrapper hmacDigest secret fnParams now store fresh_job_id kw).1 =
        .missingToken ∨
      ∃ e, (launch_wrapper hmacDigest secret fnParams now store fresh_job_id kw).1 =
        .authError e) := by
  unfold launch_wrapper
  by_cases ht : kw.token = ""
  · rw [if_pos ht]
    exact ⟨rfl, rfl, Or.inl rfl⟩
  · rw [if_neg ht]
    rcases hbad with h | ⟨e, he⟩
    · exact absurd h ht
    · rw [he]
      exact ⟨rfl, rfl, Or.inr ⟨e, rfl⟩⟩

/-- C3 witness: a structurally invalid token (no dot) is rejected with the
store untouched and nothing scheduled. -/
theorem C3_launch_fails_closed_witness :
    (launch_wrapper demoHmac demoSecret ["url"] 0 demoOldStore "jid"
      ⟨"bogus", none, false, []⟩).2.1 = demoOldStore ∧
    (launch_wrapper demoHmac demoSecret ["url"] 0 demoOldStore "jid"
      ⟨"bogus", none, false, []⟩).2.2 = none ∧
    ((launch_wrapper demoHmac demoSecret ["url"] 0 demoOldStore "jid"
        ⟨"bogus", none, false, []⟩).1 = .missingToken ∨
      ∃ e, (launch_wrapper demoHmac demoSecret ["url"] 0 demoOldStore "jid"
        ⟨"bogus", none, false, []⟩).1 = .authError e) :=
  C3_launch_fails_closed demoHmac demoSecret ["url"] 0 demoOldStore "jid"
    ⟨"bogus", none, false, []⟩ (Or.inr ⟨.invalidFormat, by decide⟩)

/-- C4: contrary to the spec (and to the adapter's own docstring), the
verified session id is not what a tool declaring `session_id` receives.
At a concrete launch through the jobs.py adapter with a valid token, the
scheduled work's forwarded arguments contain no `session_id` at all; the
long_job_server.py variant's `kwargs.setdefault` keeps a caller-supplied
`session_id` instead of the verified one; and `session_id` stays in the
synthesized public signature of both variants. -/
theorem C4_session_id_injection_broken :
    (launch_wrapper demoHmac demoSecret ["url", "session_id"] 0 [] "jid1"
        ⟨demoToken, none, false, [("url", KwargVal.str "u")]⟩).2.2 =
      some ⟨jk "s" "jid1", [("url", KwargVal.str "u")]⟩ ∧
    jobs_forwarded ["url", "session_id"] [("url", KwargVal.str "u")] =
      [("url", KwargVal.str "u")] ∧
    server_forwarded ["url", "session_id"] "s"
        [("session_id", KwargVal.str "forged")] =
      [("session_id", KwargVal.str "forged")] ∧
    "session_id" ∈ launchSignatureParams ["url", "session_id"] ∧
    "session_id" ∈ launchSignatureParamsServer ["url", "session_id"] := by
  refine ⟨by decide, by decide, by decide, by decide, by decide⟩

/-- C7: whatever the execution outcome (return, exception, timeout or
cancellation), finalization leaves the job in a terminal state with
`finished_at` set, and never clears an already-set finish timestamp. -/
theorem C7_terminal_has_finished_at (job : Job) (outcome : ExecOutcome) (t_final : ℚ) :
    (finalizeJob job outcome t_final).state.isTerminal = true ∧
    ((finalizeJob job outcome t_final).finished_at).isSome = true ∧
    (job.finished_at.isSome = true →
      ((finalizeJob job outcome t_final).finished_at).isSome = true) := by
  cases outcome <;> cases hf : job.finished_at <;>
    simp [finalizeJob, JobState.isTerminal, hf]

/-- C8 counterexample: the claim that no progress_cb report ever stores a
value lower than the current progress is false - a report of 3/10 on a
running job at 9/10 stores 3/10. -/
theorem C8_progress_can_decrease :
    demoRunningJob.state = .running ∧
    (progressUpdate demoRunningJob (mkRat 3 10) "m").progress <
      demoRunningJob.progress := by
  exact ⟨rfl, by decide⟩

/-- C8 (amended): a progress_cb report stores the reported fraction
clamped into [0, 1] - so stored progress always lies in [0, 1], and a
callable whose successive reported fractions are non-decreasing produces
non-decreasing stored progress.  The code never compares against the
previous value, so a lower report lowers stored progress (see the
counterexample). -/
theorem C8_progress_clamped_monotone (job : Job) (f1 f2 : ℚ) (m1 m2 : String)
    (hf : f1 ≤ f2) :
    0 ≤ (progressUpdate job f1 m1).progress ∧
    (progressUpdate job f1 m1).progress ≤ 1 ∧
    (progressUpdate job f1 m1).progress ≤
      (progressUpdate (progressUpdate job f1 m1) f2 m2).progress := by
  unfold progressUpdate clampFraction
  simp only
  refine ⟨?_, ?_, ?_⟩ <;> split_ifs <;> first | rfl | linarith

/-- C8 witness: two well-ordered reports (0 then 1) keep progress in
bounds and non-decreasing. -/
theorem C8_progress_clamped_monotone_witness :
    0 ≤ (progressUpdate demoRunningJob 0 "a").progress ∧
    (progressUpdate demoRunningJob 0 "a").progress ≤ 1 ∧
    (progressUpdate demoRunningJob 0 "a").progress ≤
      (progressUpdate (progressUpdate demoRunningJob 0 "a") 1 "b").progress :=
  C8_progress_clamped_monotone demoRunningJob 0 1 "a" "b" (by decide)

/-- C2: with a token of session `s2`, a store whose entries all belong to
other sessions (in particular one holding another session's job under the
correct `job_id`) is indistinguishable from an empty store: `status`,
`result` and `cancel` all fail with the very `ToolError` used for ids
that never existed, because lookup goes through the composite
`(session_id, job_id)` key. -/
theorem C2_session_isolation (hmacDigest : HmacFn) (secret : List Nat) (now : Nat)
    (store : JobStore) (job_id token2 : String) (payload2 : TokenPayload)
    (htok : ¬ token2 = "")
    (hv : verify_token hmacDigest secret now token2 = .ok payload2)
    (hforeign : ∀ e ∈ store, e.1.1 ≠ payload2.sid) :
    get_job_status hmacDigest secret now store job_id token2 = .toolError noSuchJobMsg ∧
    get_job_status hmacDigest secret now store job_id token2 =
      get_job_status hmacDigest secret now [] job_id token2 ∧
    (get_job_result hmacDigest secret now store job_id token2).1 = .toolError noSuchJobMsg ∧
    (get_job_result hmacDigest secret now store job_id token2).1 =
      (get_job_result hmacDigest secret now [] job_id token2).1 ∧
    cancel_job hmacDigest secret now store job_id token2 = .toolError noSuchJobMsg ∧
    cancel_job hmacDigest secret now store job_id token2 =
      cancel_job hmacDigest secret now [] job_id token2 := by
  have hkey : ∀ s' : JobStore, (∀ e ∈ s', e.1.1 ≠ payload2.sid) →
      storeGet s' (jk payload2.sid job_id) = none := by
    intro s' h
    rw [storeGet_eq_none_iff]
    intro e he hk
    exact h e he (by rw [hk]; rfl)
  have hget : storeGet store (jk payload2.sid job_id) = none := hkey store hforeign
  have hgetsw : storeGet (sweep_jobs store (now : ℚ) (60 * 60) true)
      (jk payload2.sid job_id) = none := storeGet_filter_none _ _ _ hget
  have hstatus : ∀ s' : JobStore, storeGet s' (jk payload2.sid job_id) = none →
      get_job_status hmacDigest secret now s' job_id token2 = .toolError noSuchJobMsg := by
    intro s' hg
    unfold get_job_status
    rw [if_neg htok, hv]
    simp only
    rw [hg]
  have hresult : ∀ s' : JobStore,
      storeGet (sweep_jobs s' (now : ℚ) (60 * 60) true) (jk payload2.sid job_id) = none →
      (get_job_result hmacDigest secret now s' job_id token2).1 =
        .toolError noSuchJobMsg := by
    intro s' hg
    unfold get_job_result resolve_job_result
    rw [if_neg htok, hv]
    simp only
    rw [hg]
  have hcancel : ∀ s' : JobStore, storeGet s' (jk payload2.sid job_id) = none →
      cancel_job hmacDigest secret now s' job_id token2 = .toolError noSuchJobMsg := by
    intro s' hg
    unfold cancel_job
    rw [if_neg htok, hv]
    simp only
    rw [hg]
  have hs := hstatus store hget
  have hs0 := hstatus [] (by rfl)
  have hr := hresult store hgetsw
  have hr0 := hresult [] (by rfl)
  have hc := hcancel store hget
  have hc0 := hcancel [] (by rfl)
  exact ⟨hs, hs.trans hs0.symm, hr, hr.trans hr0.symm, hc, hc.trans hc0.symm⟩

/-- C2 witness: a store holding session "s" jobs answers a valid "s2"
token exactly as the empty store does. -/
theorem C2_session_isolation_witness :
    get_job_status demoHmac demoSecret 100 demoOldStore "j1" demoToken2 =
      .toolError noSuchJobMsg ∧
    get_job_status demoHmac demoSecret 100 demoOldStore "j1" demoToken2 =
      get_job_status demoHmac demoSecret 100 [] "j1" demoToken2 ∧
    (get_job_result demoHmac demoSecret 100 demoOldStore "j1" demoToken2).1 =
      .toolError noSuchJobMsg ∧
    (get_job_result demoHmac demoSecret 100 demoOldStore "j1" demoToken2).1 =
      (get_job_result demoHmac demoSecret 100 [] "j1" demoToken2).1 ∧
    cancel_job demoHmac demoSecret 100 demoOldStore "j1" demoToken2 =
      .toolError noSuchJobMsg ∧
    cancel_job demoHmac demoSecret 100 demoOldStore "j1" demoToken2 =
      cancel_job demoHmac demoSecret 100 [] "j1" demoToken2 :=
  C2_session_isolation demoHmac demoSecret 100 demoOldStore "j1" demoToken2
    ⟨"s2", 9999⟩ (by decide) (by decide) (by decide)

/-- C10: with a valid token, `get_job_result` first sweeps the whole
shared store - an entry survives the sweep exactly when its age (from
`finished_at`, else `created_at`) is at most one hour or it is still
PENDING or RUNNING, regardless of session - and only then resolves the
requested key against the swept store. -/
theorem C10_result_sweeps_whole_store (hmacDigest : HmacFn) (secret : List Nat)
    (now : Nat) (store : JobStore) (job_id token : String) (payload : TokenPayload)
    (htok : ¬ token = "")
    (hv : verify_token hmacDigest secret now token = .ok payload) :
    (∀ e : JobKey × Job, e ∈ sweep_jobs store (now : ℚ) (60 * 60) true ↔
      (e ∈ store ∧ ((now : ℚ) - (e.2.finished_at.getD e.2.created_at) ≤ 60 * 60 ∨
        e.2.state = .pending ∨ e.2.state = .running))) ∧
    get_job_result hmacDigest secret now store job_id token =
      resolve_job_result (sweep_jobs store (now : ℚ) (60 * 60) true)
        (jk payload.sid job_id) := by
  constructor
  · intro e
    unfold sweep_jobs
    rw [List.mem_filter]
    unfold sweepKeep
    constructor
    · rintro ⟨hm, hk⟩
      refine ⟨hm, ?_⟩
      split_ifs at hk with h1 h2
      · exact Or.inl h1
      · simp only [Bool.true_and, Bool.or_eq_true, beq_iff_eq] at h2
        exact Or.inr h2
    · rintro ⟨hm, hc⟩
      refine ⟨hm, ?_⟩
      split_ifs with h1 h2
      · rfl
      · rfl
      · rcases hc with hc | hc | hc
        · exact absurd hc h1
        · exact absurd (by simp [hc]) h2
        · exact absurd (by simp [hc]) h2
  · unfold get_job_result
    rw [if_neg htok, hv]

/-- C10 witness: the sweep characterization and sweep-then-resolve
composition at a concrete call. -/
theorem C10_result_sweeps_whole_store_witness :
    (∀ e : JobKey × Job, e ∈ sweep_jobs demoOldStore ((100 : Nat) : ℚ) (60 * 60) true ↔
      (e ∈ demoOldStore ∧
        (((100 : Nat) : ℚ) - (e.2.finished_at.getD e.2.created_at) ≤ 60 * 60 ∨
          e.2.state = .pending ∨ e.2.state = .running))) ∧
    get_job_result demoHmac demoSecret 100 demoOldStore "j1" demoToken =
      resolve_job_result (sweep_jobs demoOldStore ((100 : Nat) : ℚ) (60 * 60) true)
        (jk "s" "j1") :=
  C10_result_sweeps_whole_store demoHmac demoSecret 100 demoOldStore "j1" demoToken
    ⟨"s", 9999⟩ (by decide) (by decide)

/-- C1 counterexample: a DONE job whose `finished_at` lies more than one
hour in the past is removed by the sweep inside `get_job_result`, so even
the FIRST `get_job_result` call on this terminal job - with a valid
token of the owning session - fails with the `NotFound` rejection,
against the claim that the first call always returns a non-NotFound
outcome. -/
theorem C1_stale_terminal_swept_to_not_found :
    demoOldDoneJob.state.isTerminal = true ∧
    storeGet demoOldStore (jk "s" "j1") = some demoOldDoneJob ∧
    verify_token demoHmac demoSecret 9000 demoToken = .ok ⟨"s", 9999⟩ ∧
    (get_job_result demoHmac demoSecret 9000 demoOldStore "j1" demoToken).1 =
      .toolError noSuchJobMsg := by
  refine ⟨by decide, by decide, by decide, ?_⟩
  have hv : verify_token demoHmac demoSecret 9000 demoToken = .ok ⟨"s", 9999⟩ := by decide
  have hkeep : sweepKeep ((9000 : Nat) : ℚ) (60 * 60) true demoOldDoneJob = false := by
    unfold sweepKeep demoOldDoneJob
    norm_num
    decide
  have hsw : sweep_jobs demoOldStore ((9000 : Nat) : ℚ) (60 * 60) true = [] := by
    unfold sweep_jobs demoOldStore
    rw [List.filter_cons, List.filter_nil]
    rw [if_neg (by rw [hkeep]; exact Bool.false_ne_true)]
  unfold get_job_result
  rw [if_neg (by decide), hv]
  simp only
  rw [hsw]
  rfl

/-- C1 (amended): provided the job also survives the one-hour sweep that
`get_job_result` runs first (its age from `finished_at`, else
`created_at`, is at most 3600 s - always true of PENDING/RUNNING jobs),
the claim holds: the first call on a terminal job returns its non-NotFound
outcome and removes it, so a second call fails with `NotFound`; a call on
a PENDING/RUNNING job answers `job not complete` and leaves the job in
place. -/
theorem C1_result_consumes_within_sweep_age (hmacDigest : HmacFn) (secret : List Nat)
    (now : Nat) (store : JobStore) (job_id token : String) (payload : TokenPayload)
    (job : Job) (htok : ¬ token = "")
    (hv : verify_token hmacDigest secret now token = .ok payload)
    (hget : storeGet store (jk payload.sid job_id) = some job)
    (hkeep : sweepKeep (now : ℚ) (60 * 60) true job = true) :
    (job.state.isTerminal = true →
      (get_job_result hmacDigest secret now store job_id token).1 =
        .ok ⟨job.job_id, job.state, (if job.state = .done then job.result else none),
          job.error, job.error_type⟩ ∧
      storeGet (get_job_result hmacDigest secret now store job_id token).2
        (jk payload.sid job_id) = none ∧
      (get_job_result hmacDigest secret now
          (get_job_result hmacDigest secret now store job_id token).2 job_id token).1 =
        .toolError noSuchJobMsg) ∧
    (job.state.isTerminal = false →
      (get_job_result hmacDigest secret now store job_id token).1 =
        .ok ⟨job.job_id, job.state, none, some "job not complete", none⟩ ∧
      storeGet (get_job_result hmacDigest secret now store job_id token).2
        (jk payload.sid job_id) = some job) := by
  have hget1 : storeGet (sweep_jobs store (now : ℚ) (60 * 60) true)
      (jk payload.sid job_id) = some job := by
    apply storeGet_filter_of_get store _ job _ hget
    intro e _he _hk hj
    show sweepKeep (now : ℚ) (60 * 60) true e.2 = true
    rw [hj]
    exact hkeep
  have hcall : get_job_result hmacDigest secret now store job_id token =
      resolve_job_result (sweep_jobs store (now : ℚ) (60 * 60) true)
        (jk payload.sid job_id) := by
    unfold get_job_result
    rw [if_neg htok, hv]
  constructor
  · intro hterm
    have h1 : get_job_result hmacDigest secret now store job_id token =
        (.ok ⟨job.job_id, job.state, (if job.state = .done then job.result else none),
            job.error, job.error_type⟩,
          storePop (sweep_jobs store (now : ℚ) (60 * 60) true) (jk payload.sid job_id)) := by
      rw [hcall]
      unfold resolve_job_result
      rw [hget1]
      simp only
      rw [if_pos hterm]
    have hnone : storeGet (storePop (sweep_jobs store (now : ℚ) (60 * 60) true)
        (jk payload.sid job_id)) (jk payload.sid job_id) = none :=
      storeGet_storePop_self _ _
    refine ⟨by rw [h1], by rw [h1]; exact hnone, ?_⟩
    rw [h1]
    unfold get_job_result resolve_job_result
    rw [if_neg htok, hv]
    simp only
    rw [storeGet_sweep_none _ _ _ _ _ hnone]
  · intro hterm
    have h1 : get_job_result hmacDigest secret now store job_id token =
        (.ok ⟨job.job_id, job.state, none, some "job not complete", none⟩,
          sweep_jobs store (now : ℚ) (60 * 60) true) := by
      rw [hcall]
      unfold resolve_job_result
      rw [hget1]
      simp only
      rw [if_neg (by rw [hterm]; exact Bool.false_ne_true)]
    exact ⟨by rw [h1], by rw [h1]; exact hget1⟩

/-- C1 witness: at time 100 (within the sweep age) the first call on the
concrete DONE job returns its result and removes it, and a second call is
`NotFound`. -/
theorem C1_result_consumes_within_sweep_age_witness :
    (demoOldDoneJob.state.isTerminal = true →
      (get_job_result demoHmac demoSecret 100 demoOldStore "j1" demoToken).1 =
        .ok ⟨demoOldDoneJob.job_id, demoOldDoneJob.state,
          (if demoOldDoneJob.state = .done then demoOldDoneJob.result else none),
          demoOldDoneJob.error, demoOldDoneJob.error_type⟩ ∧
      storeGet (get_job_result demoHmac demoSecret 100 demoOldStore "j1" demoToken).2
        (jk "s" "j1") = none ∧
      (get_job_result demoHmac demoSecret 100
          (get_job_result demoHmac demoSecret 100 demoOldStore "j1" demoToken).2
          "j1" demoToken).1 = .toolError noSuchJobMsg) ∧
    (demoOldDoneJob.state.isTerminal = false →
      (get_job_result demoHmac demoSecret 100 demoOldStore "j1" demoToken).1 =
        .ok ⟨demoOldDoneJob.job_id, demoOldDoneJob.state, none,
          some "job not complete", none⟩ ∧
      storeGet (get_job_result demoHmac demoSecret 100 demoOldStore "j1" demoToken).2
        (jk "s" "j1") = some demoOldDoneJob) :=
  C1_result_consumes_within_sweep_age demoHmac demoSecret 100 demoOldStore "j1"
    demoToken ⟨"s", 9999⟩ demoOldDoneJob (by decide) (by decide) (by decide)
    (by unfold sweepKeep demoOldDoneJob; norm_num)

/-- The step the loop advances by, after the two guards: overlap is
zeroed when it reaches the chunk size, and a nonpositive difference falls
back to the full chunk size. -/
def effStep (spc ov : Int) : Int :=
  if spc - (if spc ≤ ov then 0 else ov) ≤ 0 then spc
  else spc - (if spc ≤ ov then 0 else ov)

theorem effStep_pos (spc ov : Int) (h : 1 ≤ spc) : 1 ≤ effStep spc ov := by
  unfold effStep
  split_ifs <;> omega

theorem effStep_of_overlap_ge (spc ov : Int) (h : 1 ≤ spc) (hov : spc ≤ ov) :
    effStep spc ov = spc := by
  unfold effStep
  split_ifs <;> omega

/-- C9 counterexample: `chunk_duration = 1/32000 s` is positive and the
configured overlap (1 s) exceeds it, yet the run fails with the
`ValueError` instead of disabling overlap: the `samples_per_chunk <= 0`
check fires before the overlap guard whenever `int(chunk_duration *
16000) = 0`. -/
theorem C9_subsample_duration_fails :
    (0 : ℚ) < mkRat 1 32000 ∧ mkRat 1 32000 ≤ (1 : ℚ) ∧
    transcribeChunkPlan 16000 (mkRat 1 32000) 1 =
      .error "chunk_duration must be > 0" := by
  refine ⟨by decide, by decide, ?_⟩
  have hmul : mkRat 1 32000 * (16000 : ℚ) = mkRat 1 2 := by
    rw [Rat.mkRat_eq_div, Rat.mkRat_eq_div]
    norm_num
  unfold transcribeChunkPlan
  simp only [hmul]
  rw [if_pos (by decide : intTrunc (mkRat 1 2) ≤ 0)]

/-- C9 (amended): whenever the truncated chunk size `int(chunk_duration *
16000)` is at least one sample, chunking succeeds: the plan is the
ordered list of fixed-size slices whose start positions form a chain
advancing by exactly the effective step (`samples_per_chunk -
overlap_samples`); when `int(overlap * 16000)` reaches the chunk size the
run still succeeds, with overlap disabled (the step becomes the full
chunk size) and the warning flag set.  A positive `chunk_duration` below
one sample (`int(chunk_duration * 16000) = 0`) instead raises
`ValueError` (see the counterexample). -/
theorem C9_chunk_plan_steps (numSamples : Nat) (chunk_duration overlap : ℚ)
    (hspc : 1 ≤ intTrunc (chunk_duration * 16000)) :
    transcribeChunkPlan numSamples chunk_duration overlap =
      .ok ((chunkStarts numSamples (intTrunc (chunk_duration * 16000)).toNat
          (effStep (intTrunc (chunk_duration * 16000))
            (intTrunc (overlap * 16000))).toNat 0).map
        (fun s => (s, min (s + (intTrunc (chunk_duration * 16000)).toNat) numSamples)),
        decide (intTrunc (chunk_duration * 16000) ≤ intTrunc (overlap * 16000))) ∧
    List.Chain'
      (fun a b => b = a + (effStep (intTrunc (chunk_duration * 16000))
        (intTrunc (overlap * 16000))).toNat)
      (chunkStarts numSamples (intTrunc (chunk_duration * 16000)).toNat
        (effStep (intTrunc (chunk_duration * 16000))
          (intTrunc (overlap * 16000))).toNat 0) ∧
    (intTrunc (chunk_duration * 16000) ≤ intTrunc (overlap * 16000) →
      effStep (intTrunc (chunk_duration * 16000)) (intTrunc (overlap * 16000)) =
        intTrunc (chunk_duration * 16000)) := by
  refine ⟨?_, ?_, ?_⟩
  · unfold transcribeChunkPlan
    rw [if_neg (by omega)]
    unfold effStep
    rfl
  · apply chunkStarts_chain
    have := effStep_pos (intTrunc (chunk_duration * 16000)) (intTrunc (overlap * 16000)) hspc
    omega
  · intro hov
    exact effStep_of_overlap_ge _ _ hspc hov

/-- C9 witness: a 7-sample chunk with 2-sample overlap over 20 samples
steps by 5, and an overlap equal to the chunk size disables itself. -/
theorem C9_chunk_plan_steps_witness :
    transcribeChunkPlan 20 (mkRat 7 16000) (mkRat 2 16000) =
      .ok ((chunkStarts 20 (intTrunc (mkRat 7 16000 * 16000)).toNat
          (effStep (intTrunc (mkRat 7 16000 * 16000))
            (intTrunc (mkRat 2 16000 * 16000))).toNat 0).map
        (fun s => (s, min (s + (intTrunc (mkRat 7 16000 * 16000)).toNat) 20)),
        decide (intTrunc (mkRat 7 16000 * 16000) ≤ intTrunc (mkRat 2 16000 * 16000))) ∧
    List.Chain'
      (fun a b => b = a + (effStep (intTrunc (mkRat 7 16000 * 16000))
        (intTrunc (mkRat 2 16000 * 16000))).toNat)
      (chunkStarts 20 (intTrunc (mkRat 7 16000 * 16000)).toNat
        (effStep (intTrunc (mkRat 7 16000 * 16000))
          (intTrunc (mkRat 2 16000 * 16000))).toNat 0) ∧
    (intTrunc (mkRat 7 16000 * 16000) ≤ intTrunc (mkRat 2 16000 * 16000) →
      effStep (intTrunc (mkRat 7 16000 * 16000)) (intTrunc (mkRat 2 16000 * 16000)) =
        intTrunc (mkRat 7 16000 * 16000)) :=
  C9_chunk_plan_steps 20 (mkRat 7 16000) (mkRat 2 16000) (by
    have h7 : mkRat 7 16000 * (16000 : ℚ) = 7 := by
      rw [Rat.mkRat_eq_div]
      norm_num
    rw [h7]
    decide)

end MCP
